import Mathlib

/-!
Shallow embedding of `src/backend/backend_app.py` (Masterblog API, Flask).

The mutable global `POSTS` list is embedded as explicit state passing: every
route handler becomes a function `... → List Post → Resp × List Post`
returning the response together with the post collection after the call.
Python dicts of the fixed post shape become the `Post` structure; request
bodies (JSON objects) become `ReqBody`, recording for each schema field
whether it is present and with which JSON value, plus the list of keys that
do not belong to the schema.  Marshmallow's `schema.load` (all four fields
`required=True`, unknown keys rejected) becomes `schemaLoad`.  Python string
comparison is code-point lexicographic, embedded as `charListLe` on the
character lists; `sorted(..., key=k)` is the stable `List.mergeSort` with
`le a b := k a ≤ k b`, and `sorted(..., key=k, reverse=True)` is the stable
descending sort, i.e. `mergeSort` with `le a b := k b ≤ k a` (CPython's
`reverse=True` keeps ties in input order, as does `mergeSort` with the
swapped reflexive comparator).  `datetime.date.fromisoformat` becomes
`parseIsoDate` (the `YYYY-MM-DD` format with real calendar validation);
a raised `ValueError` (empty `max`, bad date) becomes the `Resp.exn`
constructor, an uncaught Python exception.
-/

namespace Masterblog

/-- A blog post, the dict shape stored in the global `POSTS` list. -/
structure Post where
  id : Nat
  title : String
  content : String
  author : String
  date : String
deriving DecidableEq

/-- The two seeded posts the module initialises `POSTS` with. -/
def initialPosts : List Post :=
  [⟨1, "First post", "This is the first post.", "Jerome", "2023-06-07"⟩,
   ⟨2, "Second post", "This is the second post.", "Savanna", "2024-06-07"⟩]

/-- A JSON value as far as the schema can observe it: a string or some
non-string value (number, null, object, ...). -/
inductive JVal where
  | jstr (s : String)
  | other
deriving DecidableEq

/-- A JSON request body, projected onto the schema's key space: for each of
the four schema fields, whether the key is present and with which value, and
the list of any further keys appearing in the object. -/
structure ReqBody where
  title : Option JVal
  content : Option JVal
  author : Option JVal
  date : Option JVal
  extra : List String
deriving DecidableEq

/-- The result of a successful `schema.load`: since all four fields are
`required=True`, a successful load always carries all four strings. -/
structure Loaded where
  title : String
  content : String
  author : String
  date : String
deriving DecidableEq

/-- Loading one marshmallow `fields.Str(required=True)` field: missing key
or non-string value is a validation error. -/
def loadField (v : Option JVal) : Except String String :=
  match v with
  | none => .error "Missing data for required field."
  | some (.jstr s) => .ok s
  | some .other => .error "Not a valid string."

/-- `schema.load(request.get_json())` for `ItemSchema`: rejects unknown keys
(marshmallow 3 default `unknown = RAISE`) and requires each of the four
fields to be present and a string.  The error strings are immaterial: the
handlers only observe that a `ValidationError` was raised. -/
def schemaLoad (b : ReqBody) : Except String Loaded :=
  if b.extra ≠ [] then .error "Unknown field."
  else
    match loadField b.title with
    | .error e => .error e
    | .ok t =>
      match loadField b.content with
      | .error e => .error e
      | .ok c =>
        match loadField b.author with
        | .error e => .error e
        | .ok a =>
          match loadField b.date with
          | .error e => .error e
          | .ok d => .ok ⟨t, c, a, d⟩

/-- A response from a route handler.  `created` is the 201 create payload
(the `createdAt` timestamp wrapper around it depends on the wall clock and
is not modelled), `err` is the standardized error envelope carrying the HTTP
status and `errorCode`, and `exn` is an uncaught Python exception (the
framework's 500). -/
inductive Resp where
  | posts (l : List Post)
  | created (p : Post)
  | post (p : Post)
  | message (m : String)
  | err (status : Nat) (errorCode : String)
  | exn (msg : String)
deriving DecidableEq

/-- `max(post['id'] for post in POSTS)`: `none` when the collection is empty
(where CPython's `max` raises `ValueError`). -/
def maxIdOfPosts : List Post → Option Nat
  | [] => none
  | p :: ps => some (ps.foldl (fun m q => Nat.max m q.id) p.id)

/-- Code-point lexicographic `≤` on character lists: Python's `<=` on
strings restricted to the comparisons the sort performs. -/
def charListLe : List Char → List Char → Bool
  | [], _ => true
  | _ :: _, [] => false
  | a :: as, b :: bs => if a < b then true else if b < a then false else charListLe as bs

/-- Truthiness of `request.args.get(...)`: `None` and the empty string are
falsy, any other string is truthy. -/
def truthy : Option String → Bool
  | none => false
  | some s => !s.data.isEmpty

/-- Contiguous-sublist test on character lists, by scanning suffixes. -/
def infixOf (needle : List Char) : List Char → Bool
  | [] => needle.isEmpty
  | c :: t => needle.isPrefixOf (c :: t) || infixOf needle t

/-- Python's `needle in hay` on strings (the search guards guarantee the
needle is present, so `getD` is never the default). -/
def containsSub (hay : String) (needle : Option String) : Bool :=
  infixOf (needle.getD "").data hay.data

/-- Proleptic-Gregorian leap year, as `datetime` computes it. -/
def isLeapYear (y : Nat) : Bool :=
  (y % 4 = 0 && y % 100 ≠ 0) || y % 400 = 0

/-- Days in a month, as `datetime` validates them. -/
def daysInMonth (y m : Nat) : Nat :=
  if m = 2 then (if isLeapYear y then 29 else 28)
  else if m = 4 ∨ m = 6 ∨ m = 9 ∨ m = 11 then 30
  else 31

/-- Digit value of a decimal digit character. -/
def digitVal (c : Char) : Nat := c.toNat - 48

/-- `datetime.date.fromisoformat`: parses `YYYY-MM-DD` into the triple
(year, month, day), validating the calendar ranges; `none` where CPython
raises `ValueError`. -/
def parseIsoDate (s : String) : Option (Nat × Nat × Nat) :=
  match s.data with
  | [y1, y2, y3, y4, h1, m1, m2, h2, d1, d2] =>
    if (y1.isDigit && y2.isDigit && y3.isDigit && y4.isDigit && h1 == '-' &&
        m1.isDigit && m2.isDigit && h2 == '-' && d1.isDigit && d2.isDigit) then
      let y := digitVal y1 * 1000 + digitVal y2 * 100 + digitVal y3 * 10 + digitVal y4
      let m := digitVal m1 * 10 + digitVal m2
      let d := digitVal d1 * 10 + digitVal d2
      if 1 ≤ y ∧ 1 ≤ m ∧ m ≤ 12 ∧ 1 ≤ d ∧ d ≤ daysInMonth y m then some (y, m, d)
      else none
    else none
  | _ => none

/-- The date sort key actually fed to the comparator; the handler only sorts
with it after checking that every date in the collection parses, so the
`getD` default is never compared. -/
def dateKeyD (p : Post) : Nat × Nat × Nat :=
  (parseIsoDate p.date).getD (0, 0, 0)

/-- Calendar order on parsed (year, month, day) triples. -/
def dateLe (a b : Nat × Nat × Nat) : Bool :=
  if a.1 < b.1 then true else if b.1 < a.1 then false
  else if a.2.1 < b.2.1 then true else if b.2.1 < a.2.1 then false
  else decide (a.2.2 ≤ b.2.2)

/-- `post[sort]` for the validated sort keys ("content", "title", "author";
the "date" key takes the separate `fromisoformat` branch, and the final
else is only reached for "date"). -/
def pyGetField (p : Post) (k : Option String) : String :=
  if k = some "content" then p.content
  else if k = some "title" then p.title
  else if k = some "author" then p.author
  else p.date

/-- The string comparator `sorted(POSTS, key=lambda post: post[sort])` sorts
by. -/
def postStrLe (k : Option String) (a b : Post) : Bool :=
  charListLe (pyGetField a k).data (pyGetField b k).data

/-- The date comparator of the `sort == DATE` branches. -/
def postDateLe (a b : Post) : Bool :=
  dateLe (dateKeyD a) (dateKeyD b)

/-- The GET branch of `get_posts`: the validation cascade on `direction`
and `sort` followed by the four `sorted` calls.  After the two validation
checks both parameters are necessarily valid non-empty strings, so the
source's `if sort and direction:` guard is always taken. -/
def get_posts_GET (posts : List Post) (sort direction : Option String) : Resp :=
  if direction = none ∧ sort = none then .posts posts
  else if direction ≠ some "asc" ∧ direction ≠ some "desc" then
    .err 400 "VALIDATION_ERROR_INVALID_DIRECTION"
  else if sort ≠ some "content" ∧ sort ≠ some "title" ∧ sort ≠ some "author" ∧
      sort ≠ some "date" then
    .err 400 "VALIDATION_ERROR_INVALID_SORT"
  else if direction = some "desc" then
    if sort = some "date" then
      if posts.all (fun p => (parseIsoDate p.date).isSome) then
        .posts (posts.mergeSort fun a b => postDateLe b a)
      else .exn "Invalid isoformat string"
    else .posts (posts.mergeSort fun a b => postStrLe sort b a)
  else
    if sort = some "date" then
      if posts.all (fun p => (parseIsoDate p.date).isSome) then
        .posts (posts.mergeSort postDateLe)
      else .exn "Invalid isoformat string"
    else .posts (posts.mergeSort (postStrLe sort))

/-- HTTP method of a request to `/api/v1/posts`. -/
inductive Method where
  | GET
  | POST
deriving DecidableEq

/-- The `/api/v1/posts` route handler `get_posts`.  POST: validate the body,
assign `max(existing ids) + 1` (raising `ValueError` on an empty
collection), append, and return the created post.  GET: the list/sort logic,
which never touches the collection. -/
def get_posts (method : Method) (body : ReqBody) (sort direction : Option String)
    (posts : List Post) : Resp × List Post :=
  match method with
  | .POST =>
    match schemaLoad body with
    | .error _ => (.err 400 "VALIDATION_ERROR_MISSING_TITLE_CONTENT", posts)
    | .ok nd =>
      match maxIdOfPosts posts with
      | none => (.exn "max() arg is an empty sequence", posts)
      | some m =>
        let p : Post := ⟨m + 1, nd.title, nd.content, nd.author, nd.date⟩
        (.created p, posts ++ [p])
  | .GET => (get_posts_GET posts sort direction, posts)

/-- `find_post_by_id`: the first element of the filter by id, `None` when
the filter is empty. -/
def find_post_by_id (posts : List Post) (postId : Nat) : Option Post :=
  (posts.filter fun p => p.id = postId).head?

/-- The `DELETE /api/v1/posts/<id>` handler `delete_post`:
`POSTS.remove(post)` removes the first element equal to the found post. -/
def delete_post (posts : List Post) (i : Nat) : Resp × List Post :=
  match find_post_by_id posts i with
  | none => (.err 404 "RESOURCE_NOT_FOUND", posts)
  | some p =>
    (.message ("Post with id " ++ toString i ++ " has been deleted successfully."),
     posts.erase p)

/-- In-place mutation of the dict `find_post_by_id` returned: the first
element of the list whose id matches is replaced, everything else is left
in place. -/
def replaceFirstById (posts : List Post) (i : Nat) (p' : Post) : List Post :=
  match posts with
  | [] => []
  | q :: qs => if q.id = i then p' :: qs else q :: replaceFirstById qs i p'

/-- The `PUT /api/v1/posts/<id>` handler `handle_post`: 404 when the id is
absent, then `schema.load` on the body (all four fields required), then the
four `post[...] = new_data.get(...)` assignments — after a successful load
`new_data` always carries all four keys, so all four fields are written. -/
def handle_post (posts : List Post) (i : Nat) (body : ReqBody) : Resp × List Post :=
  match find_post_by_id posts i with
  | none => (.err 404 "RESOURCE_NOT_FOUND", posts)
  | some post =>
    match schemaLoad body with
    | .error _ => (.err 400 "VALIDATION_ERROR_MISSING_TITLE_CONTENT", posts)
    | .ok nd =>
      let p' : Post := ⟨post.id, nd.title, nd.content, nd.author, nd.date⟩
      (.post p', replaceFirstById posts i p')

/-- One stage of the search cascade: its guard, its filtered list, and
`some` exactly when the source's nested `if cond: ... if filtered:` pair
returns. -/
def stage (guard : Bool) (l : List Post) : Option (List Post) :=
  if guard && !l.isEmpty then some l else none

/-- The first stage that returned, or the final `return jsonify([])`. -/
def firstSome : List (Option (List Post)) → List Post
  | [] => []
  | some l :: _ => l
  | none :: rest => firstSome rest

/-- The list `search_posts` responds with: the staged if/early-return
cascade of the source, in source order (title∧content, title∧author,
title∧date, all four, then the four single-criterion stages). -/
def searchResult (posts : List Post) (title content author datePost : Option String) :
    List Post :=
  firstSome
    [stage (truthy title && truthy content)
      (posts.filter fun p => containsSub p.title title && containsSub p.content content),
     stage (truthy title && truthy author)
      (posts.filter fun p => containsSub p.title title && containsSub p.author author),
     stage (truthy title && truthy datePost)
      (posts.filter fun p => containsSub p.title title && containsSub p.date datePost),
     stage (truthy title && truthy content && truthy author && truthy datePost)
      (posts.filter fun p => containsSub p.title title && containsSub p.content content &&
        containsSub p.author author && containsSub p.date datePost),
     stage (truthy title) (posts.filter fun p => containsSub p.title title),
     stage (truthy content) (posts.filter fun p => containsSub p.content content),
     stage (truthy author) (posts.filter fun p => containsSub p.author author),
     stage (truthy datePost) (posts.filter fun p => containsSub p.date datePost)]

/-- The `GET /api/v1/posts/search` handler `search_posts`: pure read of the
collection. -/
def search_posts (posts : List Post) (title content author datePost : Option String) :
    Resp × List Post :=
  (.posts (searchResult posts title content author datePost), posts)

/-- Modelled from the spec (§4.1 Search): true conjunction over all supplied
non-empty criteria, empty result when no criterion is supplied.  This is the
behaviour the spec prescribes, stated alongside the source's staged cascade
to exhibit their divergence. -/
def searchConj (posts : List Post) (title content author datePost : Option String) :
    List Post :=
  if !truthy title && !truthy content && !truthy author && !truthy datePost then []
  else posts.filter fun p =>
    (!truthy title || containsSub p.title title) &&
    (!truthy content || containsSub p.content content) &&
    (!truthy author || containsSub p.author author) &&
    (!truthy datePost || containsSub p.date datePost)

/-! Helper lemmas. -/

theorem charListLe_refl : ∀ as, charListLe as as = true
  | [] => rfl
  | a :: as => by
    simp only [charListLe, if_neg (lt_irrefl a)]
    exact charListLe_refl as

theorem charListLe_trans : ∀ as bs cs, charListLe as bs = true → charListLe bs cs = true →
    charListLe as cs = true
  | [], _, _, _, _ => rfl
  | _ :: _, [], _, h, _ => by simp [charListLe] at h
  | _ :: _, _ :: _, [], _, h => by simp [charListLe] at h
  | a :: as, b :: bs, c :: cs, h1, h2 => by
    simp only [charListLe] at h1 h2 ⊢
    rcases lt_trichotomy a b with hab | hab | hab
    · rcases lt_trichotomy b c with hbc | hbc | hbc
      · rw [if_pos (lt_trans hab hbc)]
      · subst hbc; rw [if_pos hab]
      · rw [if_neg (lt_asymm hbc), if_pos hbc] at h2; cases h2
    · subst hab
      rcases lt_trichotomy a c with hac | hac | hac
      · rw [if_pos hac]
      · subst hac
        rw [if_neg (lt_irrefl a), if_neg (lt_irrefl a)] at h1 h2 ⊢
        exact charListLe_trans as bs cs h1 h2
      · rw [if_neg (lt_asymm hac), if_pos hac] at h2; cases h2
    · rw [if_neg (lt_asymm hab), if_pos hab] at h1; cases h1

theorem charListLe_total : ∀ as bs, (charListLe as bs || charListLe bs as) = true
  | [], _ => by simp [charListLe]
  | _ :: _, [] => by simp [charListLe]
  | a :: as, b :: bs => by
    simp only [charListLe]
    rcases lt_trichotomy a b with h | h | h
    · simp [h]
    · subst h
      simp only [if_neg (lt_irrefl a)]
      exact charListLe_total as bs
    · simp [h, lt_asymm h]

theorem dateLe_iff (a b : Nat × Nat × Nat) :
    dateLe a b = true ↔
      a.1 < b.1 ∨ (a.1 = b.1 ∧ (a.2.1 < b.2.1 ∨ (a.2.1 = b.2.1 ∧ a.2.2 ≤ b.2.2))) := by
  simp only [dateLe]
  split_ifs with h1 h2 h3 h4 <;> simp_all <;> omega

theorem dateLe_trans (a b c : Nat × Nat × Nat) :
    dateLe a b = true → dateLe b c = true → dateLe a c = true := by
  simp only [dateLe_iff]; omega

theorem dateLe_total (a b : Nat × Nat × Nat) : (dateLe a b || dateLe b a) = true := by
  simp only [Bool.or_eq_true, dateLe_iff]; omega

theorem mergeSort_filter_stable {α : Type} {le : α → α → Bool}
    (htrans : ∀ a b c, le a b = true → le b c = true → le a c = true)
    (htotal : ∀ a b, (le a b || le b a) = true)
    (p : α → Bool) (hp : ∀ a b, p a = true → p b = true → le a b = true)
    (l : List α) : (l.mergeSort le).filter p = l.filter p := by
  have hpw : (l.filter p).Pairwise fun a b => le a b = true :=
    List.pairwise_of_forall_mem_list fun a ha b hb =>
      hp a b (List.mem_filter.mp ha).2 (List.mem_filter.mp hb).2
  have hsub : (l.filter p).Sublist (l.mergeSort le) :=
    List.sublist_mergeSort htrans htotal hpw (List.filter_sublist l)
  have h1 : (l.filter p).filter p = l.filter p :=
    List.filter_eq_self.mpr fun a ha => (List.mem_filter.mp ha).2
  have h2 : (l.filter p).Sublist ((l.mergeSort le).filter p) := h1 ▸ hsub.filter p
  have hlen : ((l.mergeSort le).filter p).length = (l.filter p).length :=
    ((List.mergeSort_perm l le).filter p).length_eq
  exact (h2.eq_of_length hlen.symm).symm

theorem foldl_max_bounds (ps : List Post) (a : Nat) :
    a ≤ ps.foldl (fun m q => Nat.max m q.id) a ∧
      ∀ p ∈ ps, p.id ≤ ps.foldl (fun m q => Nat.max m q.id) a := by
  induction ps generalizing a with
  | nil => simp
  | cons q qs ih =>
    simp only [List.foldl_cons]
    refine ⟨le_trans (Nat.le_max_left a q.id) (ih (Nat.max a q.id)).1, ?_⟩
    intro p hp
    rcases List.mem_cons.mp hp with rfl | hp
    · exact le_trans (Nat.le_max_right a p.id) (ih (Nat.max a p.id)).1
    · exact (ih (Nat.max a q.id)).2 p hp

theorem maxIdOfPosts_spec (posts : List Post) (hne : posts ≠ []) :
    ∃ m, maxIdOfPosts posts = some m ∧ ∀ p ∈ posts, p.id ≤ m := by
  cases posts with
  | nil => exact absurd rfl hne
  | cons p ps =>
    refine ⟨_, rfl, ?_⟩
    intro q hq
    rcases List.mem_cons.mp hq with rfl | hq
    · exact (foldl_max_bounds ps q.id).1
    · exact (foldl_max_bounds ps p.id).2 q hq

theorem find_post_by_id_eq_none {posts : List Post} {i : Nat}
    (h : ∀ p ∈ posts, p.id ≠ i) : find_post_by_id posts i = none := by
  unfold find_post_by_id
  rw [List.filter_eq_nil_iff.mpr fun p hp => by simp [h p hp]]
  rfl

theorem filter_id_eq_single {posts : List Post} {i : Nat}
    (hnd : (posts.map Post.id).Nodup) {p : Post} (hp : p ∈ posts) (hi : p.id = i) :
    posts.filter (fun q => q.id = i) = [p] := by
  induction posts with
  | nil => cases hp
  | cons q qs ih =>
    rw [List.map_cons, List.nodup_cons] at hnd
    rcases List.mem_cons.mp hp with rfl | hp'
    · rw [List.filter_cons_of_pos (by simp [hi])]
      have hnone : ∀ r ∈ qs, ¬(r.id = i) := by
        intro r hr hri
        exact hnd.1 (hi ▸ hri ▸ List.mem_map_of_mem Post.id hr)
      rw [List.filter_eq_nil_iff.mpr fun r hr => by simp [hnone r hr]]
    · have hq : ¬(q.id = i) := by
        intro h
        exact hnd.1 (h ▸ hi ▸ List.mem_map_of_mem Post.id hp')
      rw [List.filter_cons_of_neg (by simp [hq])]
      exact ih hnd.2 hp'

theorem find_post_by_id_eq_some {posts : List Post} {i : Nat}
    (hnd : (posts.map Post.id).Nodup) {p : Post} (hp : p ∈ posts) (hi : p.id = i) :
    find_post_by_id posts i = some p := by
  unfold find_post_by_id
  rw [filter_id_eq_single hnd hp hi]
  rfl

theorem schemaLoad_error_of_missing {body : ReqBody}
    (h : body.title = none ∨ body.content = none ∨ body.author = none ∨ body.date = none) :
    ∃ e, schemaLoad body = .error e := by
  unfold schemaLoad
  by_cases hx : body.extra = []
  · rw [if_neg (by simp [hx])]
    rcases h with h | h | h | h
    · rw [h]; exact ⟨_, rfl⟩
    · cases hT : loadField body.title with
      | error e => exact ⟨e, rfl⟩
      | ok t => rw [h]; exact ⟨_, rfl⟩
    · cases hT : loadField body.title with
      | error e => exact ⟨e, rfl⟩
      | ok t =>
        cases hC : loadField body.content with
        | error e => exact ⟨e, rfl⟩
        | ok c => rw [h]; exact ⟨_, rfl⟩
    · cases hT : loadField body.title with
      | error e => exact ⟨e, rfl⟩
      | ok t =>
        cases hC : loadField body.content with
        | error e => exact ⟨e, rfl⟩
        | ok c =>
          cases hA : loadField body.author with
          | error e => exact ⟨e, rfl⟩
          | ok a => rw [h]; exact ⟨_, rfl⟩
  · rw [if_pos hx]; exact ⟨_, rfl⟩

theorem schemaLoad_full (t c a d : String) :
    schemaLoad ⟨some (.jstr t), some (.jstr c), some (.jstr a), some (.jstr d), []⟩ =
      .ok ⟨t, c, a, d⟩ := rfl

theorem replaceFirstById_eq_map {posts : List Post} {i : Nat}
    (hnd : (posts.map Post.id).Nodup) {p : Post} (hp : p ∈ posts) (hi : p.id = i)
    (p' : Post) :
    replaceFirstById posts i p' = posts.map fun q => if q.id = i then p' else q := by
  induction posts with
  | nil => rfl
  | cons q qs ih =>
    rw [List.map_cons, List.nodup_cons] at hnd
    rcases List.mem_cons.mp hp with rfl | hp'
    · simp only [replaceFirstById, List.map_cons, if_pos hi]
      congr 1
      have hrest : ∀ r ∈ qs, (if r.id = i then p' else r) = r := by
        intro r hr
        rw [if_neg]
        intro h
        exact hnd.1 (hi ▸ h ▸ List.mem_map_of_mem Post.id hr)
      rw [List.map_congr_left hrest, List.map_id']
    · have hq : ¬(q.id = i) := by
        intro h
        exact hnd.1 (h ▸ hi ▸ List.mem_map_of_mem Post.id hp')
      simp only [replaceFirstById, List.map_cons, if_neg hq]
      rw [ih hnd.2 hp']

theorem postStrLe_trans (k : Option String) (a b c : Post) :
    postStrLe k a b = true → postStrLe k b c = true → postStrLe k a c = true :=
  charListLe_trans _ _ _

theorem postStrLe_total (k : Option String) (a b : Post) :
    (postStrLe k a b || postStrLe k b a) = true :=
  charListLe_total _ _

theorem postDateLe_trans (a b c : Post) :
    postDateLe a b = true → postDateLe b c = true → postDateLe a c = true :=
  dateLe_trans _ _ _

theorem postDateLe_total (a b : Post) : (postDateLe a b || postDateLe b a) = true :=
  dateLe_total _ _

/-! The claims. -/

/-- C1: the claim asserts pure conjunction semantics for Search. The code's
staged cascade violates it: searching the seeded collection with
title="post" and content="zzz" must return the empty list under the claimed
conjunction (no content contains "zzz"), but the code falls through to the
title-only stage and returns both seeded posts. -/
theorem C1_search_staged_not_conjunction :
    searchResult initialPosts (some "post") (some "zzz") none none = initialPosts ∧
    searchConj initialPosts (some "post") (some "zzz") none none = [] :=
  ⟨by decide, by decide⟩

/-- C2 counterexample: updating the existing post id 1 with the proper
subset {title} of the schema's fields fails with the validation error and
changes nothing, although the claim says any subset succeeds and changes
exactly the supplied fields. -/
theorem C2_counterexample :
    handle_post initialPosts 1 ⟨some (.jstr "Edited title"), none, none, none, []⟩ =
      (.err 400 "VALIDATION_ERROR_MISSING_TITLE_CONTENT", initialPosts) := by decide

/-- C2 amended: the schema requires all four fields, so Update succeeds only
when the body supplies all of title, content, author, date as strings; it
then replaces exactly those four fields of the matching post, keeps its id
and every other post, and returns the full updated post; a body missing any
field fails with the validation error and the collection is unchanged; a
nonexistent id fails with NotFound and the collection is unchanged. -/
theorem C2_update_requires_all_fields (posts : List Post) (i : Nat)
    (hnd : (posts.map Post.id).Nodup) :
    ((∀ p ∈ posts, p.id ≠ i) →
      ∀ body, handle_post posts i body = (.err 404 "RESOURCE_NOT_FOUND", posts)) ∧
    (∀ p ∈ posts, p.id = i →
      (∀ t c a d : String,
        handle_post posts i ⟨some (.jstr t), some (.jstr c), some (.jstr a), some (.jstr d), []⟩ =
          (.post ⟨p.id, t, c, a, d⟩,
           posts.map fun q => if q.id = i then ⟨p.id, t, c, a, d⟩ else q)) ∧
      (∀ body,
        body.title = none ∨ body.content = none ∨ body.author = none ∨ body.date = none →
        handle_post posts i body =
          (.err 400 "VALIDATION_ERROR_MISSING_TITLE_CONTENT", posts))) := by
  constructor
  · intro habs body
    simp [handle_post, find_post_by_id_eq_none habs]
  · intro p hp hi
    have hfind := find_post_by_id_eq_some hnd hp hi
    constructor
    · intro t c a d
      simp only [handle_post, hfind, schemaLoad_full]
      rw [replaceFirstById_eq_map hnd hp hi]
    · intro body hmiss
      obtain ⟨e, he⟩ := schemaLoad_error_of_missing hmiss
      simp [handle_post, hfind, he]

theorem C2_update_requires_all_fields_witness :
    (initialPosts.map Post.id).Nodup ∧
    handle_post initialPosts 1
        ⟨some (.jstr "T"), some (.jstr "C"), some (.jstr "A"), some (.jstr "2025-01-01"), []⟩ =
      (.post ⟨1, "T", "C", "A", "2025-01-01"⟩,
       initialPosts.map fun q => if q.id = 1 then ⟨1, "T", "C", "A", "2025-01-01"⟩ else q) :=
  ⟨by decide,
   ((C2_update_requires_all_fields initialPosts 1 (by decide)).2
       ⟨1, "First post", "This is the first post.", "Jerome", "2023-06-07"⟩
       (by decide) rfl).1 "T" "C" "A" "2025-01-01"⟩

/-- C3: creating a valid post against the empty collection raises
`ValueError` at `max(post['id'] for post in POSTS)` instead of appending. -/
theorem C3_create_on_empty_raises :
    get_posts .POST ⟨some (.jstr "t"), some (.jstr "c"), some (.jstr "a"),
        some (.jstr "2024-01-01"), []⟩ none none [] =
      (.exn "max() arg is an empty sequence", []) := by decide

/-- C4: on a non-empty collection, create with all four fields present
returns a created post appended to the collection, with id strictly greater
than every pre-existing id, and the collection grows by exactly one. -/
theorem C4_create_id_strictly_greater (posts : List Post) (t c a d : String)
    (hne : posts ≠ []) :
    ∃ p : Post,
      get_posts .POST ⟨some (.jstr t), some (.jstr c), some (.jstr a), some (.jstr d), []⟩
          none none posts =
        (.created p, posts ++ [p]) ∧
      (∀ q ∈ posts, q.id < p.id) ∧
      (get_posts .POST ⟨some (.jstr t), some (.jstr c), some (.jstr a), some (.jstr d), []⟩
          none none posts).2.length = posts.length + 1 := by
  obtain ⟨m, hm, hle⟩ := maxIdOfPosts_spec posts hne
  refine ⟨⟨m + 1, t, c, a, d⟩, ?_, ?_, ?_⟩
  · simp only [get_posts, schemaLoad_full, hm]
  · intro q hq
    exact Nat.lt_succ_of_le (hle q hq)
  · simp only [get_posts, schemaLoad_full, hm, List.length_append, List.length_cons,
      List.length_nil]

theorem C4_witness :
    initialPosts ≠ [] ∧
    ∃ p : Post,
      get_posts .POST ⟨some (.jstr "t"), some (.jstr "c"), some (.jstr "a"),
          some (.jstr "2024-01-01"), []⟩ none none initialPosts =
        (.created p, initialPosts ++ [p]) ∧
      (∀ q ∈ initialPosts, q.id < p.id) ∧
      (get_posts .POST ⟨some (.jstr "t"), some (.jstr "c"), some (.jstr "a"),
          some (.jstr "2024-01-01"), []⟩ none none initialPosts).2.length =
        initialPosts.length + 1 :=
  ⟨by decide, C4_create_id_strictly_greater initialPosts "t" "c" "a" "2024-01-01" (by decide)⟩

/-- C5: a create request missing any required field fails with the
validation error and leaves the collection exactly as it was. -/
theorem C5_create_missing_field (posts : List Post) (body : ReqBody)
    (h : body.title = none ∨ body.content = none ∨ body.author = none ∨ body.date = none) :
    get_posts .POST body none none posts =
      (.err 400 "VALIDATION_ERROR_MISSING_TITLE_CONTENT", posts) := by
  obtain ⟨e, he⟩ := schemaLoad_error_of_missing h
  simp [get_posts, he]

theorem C5_witness :
    ((⟨none, some (.jstr "c"), some (.jstr "a"), some (.jstr "2024-01-01"), []⟩ : ReqBody).title = none ∨
      (⟨none, some (.jstr "c"), some (.jstr "a"), some (.jstr "2024-01-01"), []⟩ : ReqBody).content = none ∨
      (⟨none, some (.jstr "c"), some (.jstr "a"), some (.jstr "2024-01-01"), []⟩ : ReqBody).author = none ∨
      (⟨none, some (.jstr "c"), some (.jstr "a"), some (.jstr "2024-01-01"), []⟩ : ReqBody).date = none) ∧
    get_posts .POST ⟨none, some (.jstr "c"), some (.jstr "a"), some (.jstr "2024-01-01"), []⟩
        none none initialPosts =
      (.err 400 "VALIDATION_ERROR_MISSING_TITLE_CONTENT", initialPosts) :=
  ⟨Or.inl rfl,
   C5_create_missing_field initialPosts
     ⟨none, some (.jstr "c"), some (.jstr "a"), some (.jstr "2024-01-01"), []⟩ (Or.inl rfl)⟩

/-- C6: on a collection with unique ids (the data-model invariant), delete
of a present id removes exactly the matching post and succeeds; delete of
an absent id fails with NotFound and changes nothing; deleting the same id
twice succeeds then fails. -/
theorem C6_delete_semantics (posts : List Post) (i : Nat)
    (hnd : (posts.map Post.id).Nodup) :
    ((∀ p ∈ posts, p.id ≠ i) →
      delete_post posts i = (.err 404 "RESOURCE_NOT_FOUND", posts)) ∧
    (∀ p ∈ posts, p.id = i →
      delete_post posts i =
        (.message ("Post with id " ++ toString i ++ " has been deleted successfully."),
         posts.erase p) ∧
      (posts.erase p).length + 1 = posts.length ∧
      p ∉ posts.erase p ∧
      (∀ q : Post, q ≠ p → (q ∈ posts.erase p ↔ q ∈ posts)) ∧
      delete_post (posts.erase p) i = (.err 404 "RESOURCE_NOT_FOUND", posts.erase p)) := by
  constructor
  · intro habs
    simp [delete_post, find_post_by_id_eq_none habs]
  · intro p hp hi
    have hfind := find_post_by_id_eq_some hnd hp hi
    have hpnodup : posts.Nodup := List.Nodup.of_map Post.id hnd
    have herase_none : ∀ q ∈ posts.erase p, q.id ≠ i := by
      intro q hq hqi
      have hqposts : q ∈ posts := List.mem_of_mem_erase hq
      have : q = p := List.inj_on_of_nodup_map hnd hqposts hp (by rw [hqi, hi])
      subst this
      exact hpnodup.not_mem_erase hq
    refine ⟨?_, ?_, hpnodup.not_mem_erase, ?_, ?_⟩
    · simp [delete_post, hfind]
    · have hlen := List.length_erase_of_mem hp
      have hpos := List.length_pos.mpr (List.ne_nil_of_mem hp)
      omega
    · intro q hq
      exact List.mem_erase_of_ne hq
    · simp [delete_post, find_post_by_id_eq_none herase_none]

theorem C6_witness :
    (initialPosts.map Post.id).Nodup ∧
    delete_post initialPosts 1 =
      (.message ("Post with id " ++ toString 1 ++ " has been deleted successfully."),
       initialPosts.erase ⟨1, "First post", "This is the first post.", "Jerome", "2023-06-07"⟩) ∧
    delete_post
        (initialPosts.erase ⟨1, "First post", "This is the first post.", "Jerome", "2023-06-07"⟩) 1 =
      (.err 404 "RESOURCE_NOT_FOUND",
       initialPosts.erase ⟨1, "First post", "This is the first post.", "Jerome", "2023-06-07"⟩) := by
  have h := (C6_delete_semantics initialPosts 1 (by decide)).2
    ⟨1, "First post", "This is the first post.", "Jerome", "2023-06-07"⟩ (by decide) rfl
  exact ⟨by decide, h.1, h.2.2.2.2⟩

/-- C7: listing with sort=title is the stable sort of the collection by the
title string: ascending gives pairwise non-decreasing titles, descending
pairwise non-increasing titles, each result is a permutation of the
collection, and in both directions posts with any given title appear in
exactly their original relative order. -/
theorem C7_sort_title_stable (posts : List Post) :
    (∃ l, get_posts_GET posts (some "title") (some "asc") = .posts l ∧
      l.Perm posts ∧
      l.Pairwise (fun a b => charListLe a.title.data b.title.data = true) ∧
      ∀ t : String, l.filter (fun p => p.title = t) = posts.filter (fun p => p.title = t)) ∧
    (∃ l, get_posts_GET posts (some "title") (some "desc") = .posts l ∧
      l.Perm posts ∧
      l.Pairwise (fun a b => charListLe b.title.data a.title.data = true) ∧
      ∀ t : String, l.filter (fun p => p.title = t) = posts.filter (fun p => p.title = t)) := by
  constructor
  · refine ⟨posts.mergeSort (postStrLe (some "title")), rfl,
      List.mergeSort_perm posts _, ?_, ?_⟩
    · exact List.sorted_mergeSort (postStrLe_trans (some "title"))
        (postStrLe_total (some "title")) posts
    · intro t
      exact mergeSort_filter_stable (postStrLe_trans (some "title"))
        (postStrLe_total (some "title")) (fun p => p.title = t)
        (fun a b ha hb => by
          have ha' : a.title = t := by simpa using ha
          have hb' : b.title = t := by simpa using hb
          show charListLe a.title.data b.title.data = true
          rw [ha', hb']
          exact charListLe_refl _) posts
  · refine ⟨posts.mergeSort (fun a b => postStrLe (some "title") b a), rfl,
      List.mergeSort_perm posts _, ?_, ?_⟩
    · exact List.sorted_mergeSort
        (fun a b c hab hbc => postStrLe_trans (some "title") c b a hbc hab)
        (fun a b => by rw [Bool.or_comm]; exact postStrLe_total (some "title") a b) posts
    · intro t
      exact mergeSort_filter_stable
        (fun a b c hab hbc => postStrLe_trans (some "title") c b a hbc hab)
        (fun a b => by rw [Bool.or_comm]; exact postStrLe_total (some "title") a b)
        (fun p => p.title = t)
        (fun a b ha hb => by
          have ha' : a.title = t := by simpa using ha
          have hb' : b.title = t := by simpa using hb
          show charListLe b.title.data a.title.data = true
          rw [ha', hb']
          exact charListLe_refl _) posts

/-- C8: when every stored date parses as an ISO `YYYY-MM-DD` date, listing
with sort=date, direction=asc returns a permutation of the collection that
is pairwise non-decreasing in the parsed (year, month, day) calendar
order — the sort key is the parsed date value, not the raw string. -/
theorem C8_sort_date_calendar (posts : List Post)
    (hdates : ∀ p ∈ posts, (parseIsoDate p.date).isSome = true) :
    ∃ l, get_posts_GET posts (some "date") (some "asc") = .posts l ∧
      l.Perm posts ∧
      l.Pairwise (fun a b => dateLe (dateKeyD a) (dateKeyD b) = true) := by
  have hall : posts.all (fun p => (parseIsoDate p.date).isSome) = true :=
    List.all_eq_true.mpr hdates
  refine ⟨posts.mergeSort postDateLe, ?_, List.mergeSort_perm posts _, ?_⟩
  · show get_posts_GET posts (some "date") (some "asc") = _
    simp [get_posts_GET, hall]
  · exact List.sorted_mergeSort postDateLe_trans postDateLe_total posts

theorem C8_witness :
    (∀ p ∈ [(⟨1, "A", "c", "a", "2024-02-01"⟩ : Post), ⟨2, "B", "c", "a", "2023-12-31"⟩],
      (parseIsoDate p.date).isSome = true) ∧
    (∃ l, get_posts_GET [(⟨1, "A", "c", "a", "2024-02-01"⟩ : Post),
        ⟨2, "B", "c", "a", "2023-12-31"⟩] (some "date") (some "asc") = .posts l ∧
      l.Perm [(⟨1, "A", "c", "a", "2024-02-01"⟩ : Post), ⟨2, "B", "c", "a", "2023-12-31"⟩] ∧
      l.Pairwise (fun a b => dateLe (dateKeyD a) (dateKeyD b) = true)) ∧
    get_posts_GET [(⟨1, "A", "c", "a", "2024-02-01"⟩ : Post),
        ⟨2, "B", "c", "a", "2023-12-31"⟩] (some "date") (some "asc") =
      .posts [⟨2, "B", "c", "a", "2023-12-31"⟩, ⟨1, "A", "c", "a", "2024-02-01"⟩] := by
  refine ⟨by decide,
    C8_sort_date_calendar
      [(⟨1, "A", "c", "a", "2024-02-01"⟩ : Post), ⟨2, "B", "c", "a", "2023-12-31"⟩]
      (by decide), ?_⟩
  have h1 : get_posts_GET [(⟨1, "A", "c", "a", "2024-02-01"⟩ : Post),
      ⟨2, "B", "c", "a", "2023-12-31"⟩] (some "date") (some "asc") =
      .posts ([(⟨1, "A", "c", "a", "2024-02-01"⟩ : Post),
        ⟨2, "B", "c", "a", "2023-12-31"⟩].mergeSort postDateLe) := by
    simp [get_posts_GET, List.all_eq_true.mpr (by decide :
      ∀ p ∈ [(⟨1, "A", "c", "a", "2024-02-01"⟩ : Post), ⟨2, "B", "c", "a", "2023-12-31"⟩],
        (parseIsoDate p.date).isSome = true)]
  rw [h1]
  congr 1
  simp [List.mergeSort, List.splitInTwo, List.splitAt, List.splitAt.go]
  rw [List.cons_merge_cons, if_neg (by decide)]
  simp

/-- C9: GET list and GET search leave the collection exactly as it was, for
every combination of query parameters. -/
theorem C9_list_search_readonly (posts : List Post) (body : ReqBody)
    (sort direction title content author datePost : Option String) :
    (get_posts .GET body sort direction posts).2 = posts ∧
    (search_posts posts title content author datePost).2 = posts :=
  ⟨rfl, rfl⟩

/-- C10: a body with any key outside the schema (such as "id") fails
validation on both create and update, leaving the collection unchanged, so
the body can never set a post's id. -/
theorem C10_unknown_fields_rejected (posts : List Post) (i : Nat) (body : ReqBody)
    (hx : body.extra ≠ []) :
    get_posts .POST body none none posts =
      (.err 400 "VALIDATION_ERROR_MISSING_TITLE_CONTENT", posts) ∧
    (∀ q : Post, find_post_by_id posts i = some q →
      handle_post posts i body =
        (.err 400 "VALIDATION_ERROR_MISSING_TITLE_CONTENT", posts)) := by
  have he : schemaLoad body = .error "Unknown field." := by
    unfold schemaLoad; rw [if_pos hx]
  refine ⟨by simp [get_posts, he], ?_⟩
  intro q hq
  simp [handle_post, hq, he]

theorem C10_witness :
    ((⟨some (.jstr "t"), some (.jstr "c"), some (.jstr "a"), some (.jstr "2024-01-01"),
        ["id"]⟩ : ReqBody).extra ≠ []) ∧
    get_posts .POST ⟨some (.jstr "t"), some (.jstr "c"), some (.jstr "a"),
        some (.jstr "2024-01-01"), ["id"]⟩ none none initialPosts =
      (.err 400 "VALIDATION_ERROR_MISSING_TITLE_CONTENT", initialPosts) ∧
    handle_post initialPosts 1 ⟨some (.jstr "t"), some (.jstr "c"), some (.jstr "a"),
        some (.jstr "2024-01-01"), ["id"]⟩ =
      (.err 400 "VALIDATION_ERROR_MISSING_TITLE_CONTENT", initialPosts) := by
  have h := C10_unknown_fields_rejected initialPosts 1
    ⟨some (.jstr "t"), some (.jstr "c"), some (.jstr "a"), some (.jstr "2024-01-01"), ["id"]⟩
    (by decide)
  exact ⟨by decide, h.1, h.2 ⟨1, "First post", "This is the first post.", "Jerome", "2023-06-07"⟩ (by decide)⟩

end Masterblog
